import Mathlib

/-!
A shallow embedding of `starport/pkg/cosmosgen/generate.go`, the code-generation
orchestrator of the starport repository, together with proofs about its control
flow: include-path resolution, native (Go) backend generation, script (JS)
backend generation, staging-directory lifecycle and error propagation.

External collaborators (protoc, protobufjs, sta, the file system, the dependency
cache) are modelled as environments recording, for each invocation, whether it
succeeds or which error it returns.  Each modelled operation returns the ordered
list of side-effecting events it performed together with the Go function's
return value.  Concurrent task groups (`errgroup`) return the first error
recorded by any of their tasks; scheduling nondeterminism is handled in the
theorems, whose hypotheses are invariant under permutations of task results.
-/

set_option autoImplicit false

namespace Cosmosgen

/-- Errors are modelled by their message string (a Go `error` value). -/
abbrev Err := String

/-- Model of `filepath.Join` on the absolute, slash-separated paths used here. -/
def joinPath (a b : String) : String := a ++ "/" ++ b

/-- Source `protocOuts` (lines 27-30): protoc output flags for the Go (native) backend. -/
def protocOuts : List String :=
  ["--gocosmos_out=plugins=interfacetype+grpc,Mgoogle/protobuf/any.proto=github.com/cosmos/cosmos-sdk/codec/types:.",
   "--grpc-gateway_out=logtostderr=true:."]

/-- Source `openAPIOut` (lines 32-34): the protoc output flag producing the OpenAPI spec. -/
def openAPIOut : List String := ["--openapiv2_out=logtostderr=true,allow_merge=true:."]

/-- Source `sdkImport` (line 36). -/
def sdkImport : String := "github.com/cosmos/cosmos-sdk"

/-- Source `sdkProto` (line 37). -/
def sdkProto : String := "proto"

/-- Source `sdkProtoThirdParty` (line 38). -/
def sdkProtoThirdParty : String := "third_party/proto"

/-- Source `fileTypes` (line 40). -/
def fileTypes : String := "types"

/-- Model of `protoanalysis.Package`, keeping only the fields this file uses. -/
structure ProtoPackage where
  name : String
  path : String
deriving DecidableEq

/-- Model of `module.Module`, a discovered Cosmos SDK module (only the fields used here). -/
structure Module where
  name : String
  pkg : ProtoPackage
deriving DecidableEq

/-- Model of a resolved dependency: `gomodmodule.Version` (Path, Version) extended with
the on-disk location of the dependency in the module cache.  In the real system the
location is computed by the package-cache locator (`gomodule`, outside this source
tree); per the spec (§3) this triple is the DependencyRecord
(identifier, version, location). -/
structure DepRecord where
  path : String
  version : String
  location : String
deriving DecidableEq

/-- Model of `protopath.Module`: a well-known-root request, an import path together with
relative sub-paths expected inside that dependency. -/
structure ProtopathModule where
  importPath : String
  relPaths : List String
deriving DecidableEq

/-- Source `protopath.NewModule`. -/
def NewModule (importPath : String) (relPaths : List String) : ProtopathModule :=
  ⟨importPath, relPaths⟩

/-- Source `generateOptions` (lines 56-59). -/
structure generateOptions where
  gomodPath : String
  jsOut : Option (Module → String)

/-- Source `generator` (lines 82-89).  The Go `ctx` field is modelled by
`JsCtx.callerCtx` below; `deps` is the list produced by `setup`. -/
structure Generator where
  projectPath : String
  protoPath : String
  includePaths : List String
  o : generateOptions
  deps : List DepRecord

/-- Modelled from the spec: `protopath.ResolveDependencyPaths` is not part of this source
tree.  Per spec §4.2, for each requested well-known root it finds the dependency record
whose identifier matches the request's import path (failing with a required-dependency-
not-present error when no record matches), and appends the record's location joined with
each relative sub-path, in request order. -/
def resolveDependencyPaths (deps : List DepRecord) : List ProtopathModule → Except Err (List String)
  | [] => Except.ok []
  | m :: ms =>
    match deps.find? (fun d => d.path == m.importPath) with
    | none => Except.error ("dependency " ++ m.importPath ++ " is required but not present")
    | some d =>
      match resolveDependencyPaths deps ms with
      | Except.error e => Except.error e
      | Except.ok rest => Except.ok (m.relPaths.map (joinPath d.location) ++ rest)

/-- Source `generator.resolveInclude` (lines 324-332): resolve the well-known roots, then
assemble `[g.protoPath] ++ resolved ++ g.includePaths`. -/
def resolveInclude (g : Generator) (modules : List ProtopathModule) : Except Err (List String) :=
  match resolveDependencyPaths g.deps modules with
  | Except.error e => Except.error e
  | Except.ok includePaths => Except.ok (g.protoPath :: (includePaths ++ g.includePaths))

/-- Cancellation contexts appearing in the generator: the caller's context `g.ctx`, and,
for each source-root index, the fresh context created by `errgroup.WithContext(g.ctx)`
inside that root's outer-group task (line 308). -/
inductive JsCtx where
  | callerCtx : JsCtx
  | innerCtx : Nat → JsCtx
deriving DecidableEq

/-- Ancestors of a context in the derivation tree: each per-root inner context is derived
from the caller's context. -/
def ctxAncestors : JsCtx → List JsCtx
  | JsCtx.callerCtx => [JsCtx.callerCtx]
  | JsCtx.innerCtx r => [JsCtx.innerCtx r, JsCtx.callerCtx]

/-- Cancelling context `x` cancels context `c` exactly when `x` is `c` itself or an
ancestor of `c` (Go context cancellation propagates from parent to child). -/
def cancels (x c : JsCtx) : Bool := decide (x ∈ ctxAncestors c)

/-- The outer task group of `generateJS` (line 296) is a bare `errgroup.Group` literal:
it carries no cancellation context, so a failing outer (per-root) task cancels nothing. -/
def outerGroupCancel : Option JsCtx := none

/-- The inner task group of source root `r` (line 308) is created with
`errgroup.WithContext(g.ctx)`: a failing package task inside root `r` cancels that
root's own fresh context and no other. -/
def innerGroupCancel (r : Nat) : JsCtx := JsCtx.innerCtx r

/-- Side-effecting events performed by the generator, in program order.  Subprocess
events record the context value threaded into the invocation. -/
inductive Ev where
  | mkStaging : String → Ev
  | rmStaging : String → Ev
  | protocGen : JsCtx → String → String → List String → List String → Ev
  | copyTree : String → String → Ev
  | protobufjsGen : JsCtx → String → String → String → List String → Ev
  | staGen : JsCtx → String → String → String → Ev
  | openFile : String → Bool → Bool → Ev
  | tplWrite : String → String → Ev
  | closeFile : String → Ev
deriving DecidableEq

/-- Context recorded in an event, when the event models a context-aware invocation. -/
def evCtx : Ev → Option JsCtx
  | Ev.protocGen c _ _ _ _ => some c
  | Ev.protobufjsGen c _ _ _ _ => some c
  | Ev.staGen c _ _ _ => some c
  | _ => none

/-- Recognizes the merge/copy event of the native backend. -/
def isCopy : Ev → Bool
  | Ev.copyTree _ _ => true
  | _ => false

/-- Recognizes a wrapper-templating write event. -/
def isTpl : Ev → Bool
  | Ev.tplWrite _ _ => true
  | _ => false

/-- Holds when every context-aware event of the trace carries context `c`. -/
def ctxOnly (c : JsCtx) (l : List Ev) : Bool :=
  l.all fun ev =>
    match evCtx ev with
    | none => true
    | some x => x == c

/-- Modelled from the spec: the wrapper template file `templates/client.js.tpl` is not
part of this source tree.  Per the spec (§4.4, §8) the rendered wrapper references the
types path and the rest path handed to the template, plus package metadata. -/
def renderClient (m : Module) (typesPath restPath : String) : String :=
  "const types = require(\"" ++
    (typesPath ++
      ("\")\nconst rest = require(\"" ++
        (restPath ++
          ("\")\nmodule.exports.moduleName = \"" ++ (m.pkg.name ++ "\"\n")))))

/-- Per-package external-tool outcomes for one run of the JS generation routine:
`protobufjs.Generate`, `ioutil.TempDir`, `protoc.Generate` (OpenAPI), `sta.Generate`,
`os.OpenFile` and `tpl.Execute`. -/
structure PkgEnv where
  protobufjsErr : Option Err
  temp : Except Err String
  protocErr : Option Err
  staErr : Option Err
  openErr : Option Err
  tplErr : Option Err

/-- Source: the `generate` closure of `generateJS` (lines 206-267).  Steps, in order:
protobufjs type generation into the output directory; a fresh staging directory; the
OpenAPI spec generated into it; `sta` run on `<staging>/apidocs.swagger.json` producing
`<out>/rest.js`; the wrapper written to `<out>/index.js` (opened with
`O_RDWR|O_CREATE|O_TRUNC`).  The deferred `f.Close()` runs before the deferred
`os.RemoveAll(staging)`.  The first failing step aborts the rest. -/
def generatePkg (ctx : JsCtx) (jsInc oaiInc : List String) (out : String) (env : PkgEnv)
    (m : Module) : List Ev × Option Err :=
  let pjs := Ev.protobufjsGen ctx out fileTypes m.pkg.path jsInc
  match env.protobufjsErr with
  | some e => ([pjs], some e)
  | none =>
    match env.temp with
    | Except.error e => ([pjs], some e)
    | Except.ok oaitemp =>
      let prc := Ev.protocGen ctx oaitemp m.pkg.path oaiInc openAPIOut
      match env.protocErr with
      | some e => ([pjs, Ev.mkStaging oaitemp, prc, Ev.rmStaging oaitemp], some e)
      | none =>
        let srcspec := joinPath oaitemp "apidocs.swagger.json"
        let outjs := joinPath out "rest.js"
        let staEv := Ev.staGen ctx outjs srcspec "2"
        match env.staErr with
        | some e => ([pjs, Ev.mkStaging oaitemp, prc, staEv, Ev.rmStaging oaitemp], some e)
        | none =>
          let outclient := joinPath out "index.js"
          match env.openErr with
          | some e => ([pjs, Ev.mkStaging oaitemp, prc, staEv, Ev.rmStaging oaitemp], some e)
          | none =>
            let opn := Ev.openFile outclient true true
            match env.tplErr with
            | some e =>
              ([pjs, Ev.mkStaging oaitemp, prc, staEv, opn,
                Ev.closeFile outclient, Ev.rmStaging oaitemp], some e)
            | none =>
              ([pjs, Ev.mkStaging oaitemp, prc, staEv, opn,
                Ev.tplWrite outclient (renderClient m "./types" "./rest"),
                Ev.closeFile outclient, Ev.rmStaging oaitemp], none)

/-- External-tool outcomes for one run of the Go generation routine:
`ioutil.TempDir`, `module.Discover`, `protoc.Generate` per module, `copy.Copy`. -/
structure GoEnv where
  temp : Except Err String
  discover : Except Err (List Module)
  protoc : Module → Option Err
  copyErr : Option Err

/-- The protoc invocation event of the native backend (line 183); the Go code passes the
caller's context `g.ctx`. -/
def protocEv (tmp : String) (inc : List String) (m : Module) : Ev :=
  Ev.protocGen JsCtx.callerCtx tmp m.pkg.path inc protocOuts

/-- The per-module protoc loop of `generateGo` (lines 182-186): invoke protoc for each
discovered module, aborting on the first failure. -/
def protocRun (tmp : String) (inc : List String) (pf : Module → Option Err) :
    List Module → List Ev × Option Err
  | [] => ([], none)
  | m :: ms =>
    match pf m with
    | some e => ([protocEv tmp inc m], some e)
    | none =>
      let r := protocRun tmp inc pf ms
      (protocEv tmp inc m :: r.1, r.2)

/-- Model of `errors.Wrap`: wrapping `nil` yields `nil`, wrapping an error prefixes the
message. -/
def wrapErr (msg : String) : Option Err → Option Err
  | none => none
  | some e => some (msg ++ ": " ++ e)

/-- Source `generator.generateGo` (lines 160-192): resolve includes, create one staging
directory (removed by `defer` on every later path), discover modules, run protoc for
each (fail-fast), then copy `<staging>/<gomodPath>` onto the project tree exactly once,
wrapping a copy failure with a cannot-copy-path message. -/
def generateGo (g : Generator) (env : GoEnv) : List Ev × Option Err :=
  match resolveInclude g [NewModule sdkImport [sdkProto, sdkProtoThirdParty]] with
  | Except.error e => ([], some e)
  | Except.ok includePaths =>
    match env.temp with
    | Except.error e => ([], some e)
    | Except.ok tmp =>
      match env.discover with
      | Except.error e => ([Ev.mkStaging tmp, Ev.rmStaging tmp], some e)
      | Except.ok modules =>
        match protocRun tmp includePaths env.protoc modules with
        | (tr, some e) => (Ev.mkStaging tmp :: (tr ++ [Ev.rmStaging tmp]), some e)
        | (tr, none) =>
          (Ev.mkStaging tmp ::
            (tr ++ [Ev.copyTree (joinPath tmp g.o.gomodPath) g.projectPath, Ev.rmStaging tmp]),
           wrapErr "cannot copy path" env.copyErr)

/-- Environment for script-backend generation: outcomes of `gomodule.LocatePath`, of
`module.Discover` per source path, and of the per-package external tools. -/
structure JSEnv where
  locate : DepRecord → Except Err String
  discover : String → Except Err (List Module)
  pkg : Module → PkgEnv

/-- The sequential dependency-location loop of `generateJS` (lines 288-294): the first
`LocatePath` failure aborts the whole call before any task is spawned. -/
def locateAll (locate : DepRecord → Except Err String) : List DepRecord → Except Err (List String)
  | [] => Except.ok []
  | d :: ds =>
    match locate d with
    | Except.error e => Except.error e
    | Except.ok p =>
      match locateAll locate ds with
      | Except.error e => Except.error e
      | Except.ok ps => Except.ok (p :: ps)

/-- One outer-group task of `generateJS` (lines 302-318): discover modules under a
source path (`module.Discover` receives no context), then run the per-module routine for
each discovered module inside the inner group created for root `r`, whose fresh context
is threaded into every package task.  The task's value is the inner `Wait` result: the
first package error, or none. -/
def runRoot (env : JSEnv) (jsInc oaiInc : List String) (f : Module → String) (r : Nat)
    (sp : String) : List Ev × Option Err :=
  match env.discover sp with
  | Except.error e => ([], some e)
  | Except.ok ms =>
    let runs := ms.map fun m => generatePkg (JsCtx.innerCtx r) jsInc oaiInc (f m) (env.pkg m) m
    ((runs.map Prod.fst).flatten, (runs.map Prod.snd).findSome? id)

/-- The outer fan-out of `generateJS` (lines 296-319): one task per source path, the task
of root `i` building the `i`-th fresh inner context. -/
def runRoots (env : JSEnv) (jsInc oaiInc : List String) (f : Module → String) :
    Nat → List String → List (List Ev × Option Err)
  | _, [] => []
  | i, sp :: sps => runRoot env jsInc oaiInc f i sp :: runRoots env jsInc oaiInc f (i + 1) sps

/-- Source `generator.generateJS` (lines 194-322): resolve the JS and OpenAPI include
paths, locate every dependency, then fan out over `[projectPath] ++ depPaths`.  The
returned error is the outer `errgroup.Wait` value: the first error recorded by a root
task (itself the first error of that root's package tasks). -/
def generateJS (g : Generator) (f : Module → String) (env : JSEnv) : List Ev × Option Err :=
  match resolveInclude g [NewModule sdkImport [sdkProto]] with
  | Except.error e => ([], some e)
  | Except.ok jsInc =>
    match resolveInclude g [NewModule sdkImport [sdkProto, sdkProtoThirdParty]] with
    | Except.error e => ([], some e)
    | Except.ok oaiInc =>
      match locateAll env.locate g.deps with
      | Except.error e => ([], some e)
      | Except.ok depPaths =>
        let rootRuns := runRoots env jsInc oaiInc f 0 (g.projectPath :: depPaths)
        ((rootRuns.map Prod.fst).flatten, (rootRuns.map Prod.snd).findSome? id)

/-- Environment for a whole `Generate` call: the outcome of `setup` (go mod download,
go.mod parsing, dependency resolution — producing the dependency records) and the
backend environments. -/
structure GenEnv where
  setup : Except Err (List DepRecord)
  goEnv : GoEnv
  jsEnv : JSEnv

/-- Source `Generate` (lines 93-132): run `setup`; when a gomod path is set run the Go
backend, aborting on its error; then, when a JS output binding is set, run the JS
backend; with neither target set, return nil after setup. -/
def GenerateRun (projectPath protoPath : String) (includePaths : List String)
    (o : generateOptions) (env : GenEnv) : List Ev × Option Err :=
  match env.setup with
  | Except.error e => ([], some e)
  | Except.ok deps =>
    let g : Generator := ⟨projectPath, protoPath, includePaths, o, deps⟩
    if o.gomodPath = "" then
      match o.jsOut with
      | some f => generateJS g f env.jsEnv
      | none => ([], none)
    else
      match generateGo g env.goEnv with
      | (tr, some e) => (tr, some e)
      | (tr, none) =>
        match o.jsOut with
        | some f =>
          match generateJS g f env.jsEnv with
          | (trJS, res) => (tr ++ trJS, res)
        | none => (tr, none)

/-- Specification predicate: every staging directory created in the trace is removed
later in the same trace. -/
def cleaned : List Ev → Prop
  | [] => True
  | Ev.mkStaging d :: tl => Ev.rmStaging d ∈ tl ∧ cleaned tl
  | _ :: tl => cleaned tl

/-- Concrete fixture: the SDK dependency record used by witnesses and counterexamples. -/
def sdkDep : DepRecord :=
  ⟨sdkImport, "v0.42.4", "/go/pkg/mod/github.com/cosmos/cosmos-sdk@v0.42.4"⟩

/-- Concrete fixture: a discovered module. -/
def mWit : Module := ⟨"mymodule", ⟨"mychain.mymodule", "/home/user/mychain/proto/mymodule"⟩⟩

/-- Concrete fixture: a JS output placement function. -/
def f0 : Module → String :=
  fun m => joinPath "/home/user/mychain/vue/src/store/generated" m.name

/-- Concrete fixture: a generator with both targets set and the SDK dependency present. -/
def gOk : Generator :=
  ⟨"/home/user/mychain", "/home/user/mychain/proto", ["/home/user/mychain/vendor/proto"],
   ⟨"github.com/user/mychain", some f0⟩, [sdkDep]⟩

/-- Concrete fixture: a generator whose caller-supplied extra include path duplicates a
resolved well-known root. -/
def gDup : Generator :=
  ⟨"/home/user/mychain", "/home/user/mychain/proto",
   ["/go/pkg/mod/github.com/cosmos/cosmos-sdk@v0.42.4/proto"],
   ⟨"github.com/user/mychain", none⟩, [sdkDep]⟩

/-- Concrete fixture: an all-success package environment. -/
def pkgEnvOk : PkgEnv := ⟨none, Except.ok "/tmp/oai123", none, none, none, none⟩

/-- Concrete fixture: a package environment whose first step fails. -/
def pkgEnvFail : PkgEnv := ⟨some "boom", Except.ok "/tmp/oai456", none, none, none, none⟩

/-- Concrete fixture: an all-success Go-backend environment discovering one module. -/
def goEnvOk : GoEnv := ⟨Except.ok "/tmp/go789", Except.ok [mWit], fun _ => none, none⟩

/-- Concrete fixture: module discovery results per source path — nothing in the project
tree, one module in the dependency tree. -/
def modsW : String → List Module :=
  fun sp => if sp = "/home/user/mychain" then [] else [mWit]

/-- Concrete fixture: an all-success JS-backend environment. -/
def jsEnvOk : JSEnv := ⟨fun d => Except.ok d.location, fun sp => Except.ok (modsW sp), fun _ => pkgEnvOk⟩

/-- Concrete fixture: a JS-backend environment in which exactly one package task fails. -/
def jsEnvFail : JSEnv := ⟨fun d => Except.ok d.location, fun sp => Except.ok (modsW sp), fun _ => pkgEnvFail⟩

/-- Concrete fixture: an all-success whole-call environment. -/
def genEnvOk : GenEnv := ⟨Except.ok [sdkDep], goEnvOk, jsEnvOk⟩

/-- Helper: when every requested root matches a dependency record, the spec-modelled
resolution returns, per request in order, the matched location joined with each
relative sub-path. -/
theorem resolveDependencyPaths_eq (deps : List DepRecord) (f : ProtopathModule → DepRecord) :
    ∀ ms : List ProtopathModule,
      (∀ m ∈ ms, deps.find? (fun d => d.path == m.importPath) = some (f m)) →
      resolveDependencyPaths deps ms =
        Except.ok (ms.flatMap fun m => m.relPaths.map (joinPath (f m).location)) := by
  intro ms
  induction ms with
  | nil => intro _; rfl
  | cons m t ih =>
    intro h
    have hm := h m (List.mem_cons_self m t)
    have ht := ih fun x hx => h x (List.mem_cons_of_mem m hx)
    simp [resolveDependencyPaths, hm, ht]

/-- C2: the include-path list returned by `resolveInclude` is exactly the project's
schema root, then each requested well-known root's resolved paths (the matching
record's location joined with each relative sub-path, in request order), then the
caller-supplied extra include paths, in that order. -/
theorem resolveInclude_order (g : Generator) (ms : List ProtopathModule)
    (f : ProtopathModule → DepRecord)
    (hf : ∀ m ∈ ms, g.deps.find? (fun d => d.path == m.importPath) = some (f m)) :
    resolveInclude g ms =
      Except.ok (g.protoPath ::
        ((ms.flatMap fun m => m.relPaths.map (joinPath (f m).location)) ++ g.includePaths)) := by
  simp [resolveInclude, resolveDependencyPaths_eq g.deps f ms hf]

/-- Witness for C2 at a concrete generator and request list. -/
theorem resolveInclude_order_witness :
    resolveInclude gOk [NewModule sdkImport [sdkProto, sdkProtoThirdParty]] =
      Except.ok (gOk.protoPath ::
        ((([NewModule sdkImport [sdkProto, sdkProtoThirdParty]]).flatMap
            fun m => m.relPaths.map (joinPath sdkDep.location)) ++ gOk.includePaths)) := by
  have h := resolveInclude_order gOk [NewModule sdkImport [sdkProto, sdkProtoThirdParty]]
    (fun _ => sdkDep) ?_
  · exact h
  · intro m hm
    rw [List.mem_singleton] at hm
    subst hm
    rfl

/-- C3 counterexample: `resolveInclude` performs no deduplication — with a
caller-supplied extra include path equal to a resolved well-known root, the returned
list contains that directory twice, refuting the no-duplicates part of the claim. -/
theorem resolveInclude_dup_counterexample :
    resolveInclude gDup [NewModule sdkImport [sdkProto]] =
        Except.ok ["/home/user/mychain/proto",
          "/go/pkg/mod/github.com/cosmos/cosmos-sdk@v0.42.4/proto",
          "/go/pkg/mod/github.com/cosmos/cosmos-sdk@v0.42.4/proto"] ∧
      ¬ (["/home/user/mychain/proto",
          "/go/pkg/mod/github.com/cosmos/cosmos-sdk@v0.42.4/proto",
          "/go/pkg/mod/github.com/cosmos/cosmos-sdk@v0.42.4/proto"] : List String).Nodup := by
  constructor
  · rfl
  · decide

/-- C3 (amended): the include-path list always has the project's schema root as its
first element, but the code performs no deduplication — the list is duplicate-free
exactly when the project root does not reappear among the resolved roots and extras
and those are themselves duplicate-free. -/
theorem resolveInclude_head_nodup (g : Generator) (ms : List ProtopathModule)
    (r : List String) (h : resolveDependencyPaths g.deps ms = Except.ok r) :
    resolveInclude g ms = Except.ok (g.protoPath :: (r ++ g.includePaths)) ∧
      (g.protoPath :: (r ++ g.includePaths)).head? = some g.protoPath ∧
      ((g.protoPath :: (r ++ g.includePaths)).Nodup ↔
        g.protoPath ∉ r ++ g.includePaths ∧ (r ++ g.includePaths).Nodup) := by
  refine ⟨by simp [resolveInclude, h], rfl, ?_⟩
  exact List.nodup_cons

/-- Witness for the amended C3 at a concrete generator. -/
theorem resolveInclude_head_nodup_witness :
    resolveInclude gOk [NewModule sdkImport [sdkProto]] =
      Except.ok (gOk.protoPath ::
        (["/go/pkg/mod/github.com/cosmos/cosmos-sdk@v0.42.4/proto"] ++ gOk.includePaths)) :=
  (resolveInclude_head_nodup gOk [NewModule sdkImport [sdkProto]]
    ["/go/pkg/mod/github.com/cosmos/cosmos-sdk@v0.42.4/proto"] (by rfl)).1

/-- C6: the per-package JS routine performs its steps in the fixed order — protobufjs
type generation into the output directory, OpenAPI spec generation into the fresh
staging directory, REST-client synthesis from `<staging>/apidocs.swagger.json` into
`<out>/rest.js`, wrapper templating into `<out>/index.js` — and the first failing step
aborts all later steps and surfaces exactly its error. -/
theorem generatePkg_step_order (c : JsCtx) (ji oi : List String) (out : String)
    (env : PkgEnv) (m : Module) :
    (∀ e, env.protobufjsErr = some e →
        generatePkg c ji oi out env m =
          ([Ev.protobufjsGen c out fileTypes m.pkg.path ji], some e)) ∧
      (env.protobufjsErr = none → ∀ e, env.temp = Except.error e →
        generatePkg c ji oi out env m =
          ([Ev.protobufjsGen c out fileTypes m.pkg.path ji], some e)) ∧
      (∀ d, env.protobufjsErr = none → env.temp = Except.ok d →
        ((∀ e, env.protocErr = some e →
            generatePkg c ji oi out env m =
              ([Ev.protobufjsGen c out fileTypes m.pkg.path ji, Ev.mkStaging d,
                Ev.protocGen c d m.pkg.path oi openAPIOut, Ev.rmStaging d], some e)) ∧
          (env.protocErr = none →
            ((∀ e, env.staErr = some e →
                generatePkg c ji oi out env m =
                  ([Ev.protobufjsGen c out fileTypes m.pkg.path ji, Ev.mkStaging d,
                    Ev.protocGen c d m.pkg.path oi openAPIOut,
                    Ev.staGen c (joinPath out "rest.js") (joinPath d "apidocs.swagger.json") "2",
                    Ev.rmStaging d], some e)) ∧
              (env.staErr = none →
                ((∀ e, env.openErr = some e →
                    generatePkg c ji oi out env m =
                      ([Ev.protobufjsGen c out fileTypes m.pkg.path ji, Ev.mkStaging d,
                        Ev.protocGen c d m.pkg.path oi openAPIOut,
                        Ev.staGen c (joinPath out "rest.js")
                          (joinPath d "apidocs.swagger.json") "2",
                        Ev.rmStaging d], some e)) ∧
                  (env.openErr = none →
                    ((∀ e, env.tplErr = some e →
                        generatePkg c ji oi out env m =
                          ([Ev.protobufjsGen c out fileTypes m.pkg.path ji, Ev.mkStaging d,
                            Ev.protocGen c d m.pkg.path oi openAPIOut,
                            Ev.staGen c (joinPath out "rest.js")
                              (joinPath d "apidocs.swagger.json") "2",
                            Ev.openFile (joinPath out "index.js") true true,
                            Ev.closeFile (joinPath out "index.js"), Ev.rmStaging d], some e)) ∧
                      (env.tplErr = none →
                        generatePkg c ji oi out env m =
                          ([Ev.protobufjsGen c out fileTypes m.pkg.path ji, Ev.mkStaging d,
                            Ev.protocGen c d m.pkg.path oi openAPIOut,
                            Ev.staGen c (joinPath out "rest.js")
                              (joinPath d "apidocs.swagger.json") "2",
                            Ev.openFile (joinPath out "index.js") true true,
                            Ev.tplWrite (joinPath out "index.js")
                              (renderClient m "./types" "./rest"),
                            Ev.closeFile (joinPath out "index.js"), Ev.rmStaging d],
                           none)))))))))) := by
  refine ⟨fun e h1 => ?_, fun h1 e h2 => ?_,
    fun d h1 h2 => ⟨fun e h3 => ?_, fun h3 => ⟨fun e h4 => ?_, fun h4 =>
      ⟨fun e h5 => ?_, fun h5 => ⟨fun e h6 => ?_, fun h6 => ?_⟩⟩⟩⟩⟩ <;>
    simp [generatePkg, *]

/-- Witness for C6: the all-success branch at a concrete package environment. -/
theorem generatePkg_step_order_witness :
    generatePkg JsCtx.callerCtx [] [] "/out" pkgEnvOk mWit =
      ([Ev.protobufjsGen JsCtx.callerCtx "/out" fileTypes mWit.pkg.path [],
        Ev.mkStaging "/tmp/oai123",
        Ev.protocGen JsCtx.callerCtx "/tmp/oai123" mWit.pkg.path [] openAPIOut,
        Ev.staGen JsCtx.callerCtx (joinPath "/out" "rest.js")
          (joinPath "/tmp/oai123" "apidocs.swagger.json") "2",
        Ev.openFile (joinPath "/out" "index.js") true true,
        Ev.tplWrite (joinPath "/out" "index.js") (renderClient mWit "./types" "./rest"),
        Ev.closeFile (joinPath "/out" "index.js"), Ev.rmStaging "/tmp/oai123"], none) := by
  have h := generatePkg_step_order JsCtx.callerCtx [] [] "/out" pkgEnvOk mWit
  exact ((((h.2.2 "/tmp/oai123" rfl rfl).2 rfl).2 rfl).2 rfl).2 rfl

/-- C8: the wrapper-templating step writes at most one file, always `index.js` in the
package's output directory, opened with the create and truncate flags; in a fully
successful run it is written exactly once, and the rendered wrapper references
`./types` and `./rest`. -/
theorem generatePkg_wrapper (c : JsCtx) (ji oi : List String) (out : String)
    (env : PkgEnv) (m : Module) :
    (((generatePkg c ji oi out env m).1.filter isTpl).length ≤ 1) ∧
      (∀ p s, Ev.tplWrite p s ∈ (generatePkg c ji oi out env m).1 →
        p = joinPath out "index.js" ∧ s = renderClient m "./types" "./rest") ∧
      (∀ p cr tn, Ev.openFile p cr tn ∈ (generatePkg c ji oi out env m).1 →
        p = joinPath out "index.js" ∧ cr = true ∧ tn = true) ∧
      ((generatePkg c ji oi out env m).2 = none →
        Ev.tplWrite (joinPath out "index.js") (renderClient m "./types" "./rest") ∈
          (generatePkg c ji oi out env m).1) ∧
      (∃ a b, renderClient m "./types" "./rest" = a ++ ("./types" ++ b)) ∧
      (∃ a b, renderClient m "./types" "./rest" = a ++ ("./rest" ++ b)) := by
  obtain ⟨pjs, tmp, prc, sta, opn, tpl⟩ := env
  refine ⟨?_, ?_, ?_, ?_, ?_, ?_⟩
  · cases pjs <;> cases tmp <;> cases prc <;> cases sta <;> cases opn <;> cases tpl <;>
      simp [generatePkg, isTpl]
  · intro p s h
    cases pjs <;> cases tmp <;> cases prc <;> cases sta <;> cases opn <;> cases tpl <;>
      simp_all [generatePkg]
  · intro p cr tn h
    cases pjs <;> cases tmp <;> cases prc <;> cases sta <;> cases opn <;> cases tpl <;>
      simp_all [generatePkg]
  · intro h
    cases pjs <;> cases tmp <;> cases prc <;> cases sta <;> cases opn <;> cases tpl <;>
      simp_all [generatePkg]
  · exact ⟨"const types = require(\"",
      "\")\nconst rest = require(\"" ++
        ("./rest" ++ ("\")\nmodule.exports.moduleName = \"" ++ (m.pkg.name ++ "\"\n"))), rfl⟩
  · refine ⟨"const types = require(\"" ++ ("./types" ++ "\")\nconst rest = require(\""),
      "\")\nmodule.exports.moduleName = \"" ++ (m.pkg.name ++ "\"\n"), ?_⟩
    simp only [renderClient, String.append_assoc]

/-- Witness for C8: in the all-success run the wrapper-write event is present, at the
fixed path and with the fixed rendered content. -/
theorem generatePkg_wrapper_witness :
    Ev.tplWrite (joinPath "/out" "index.js") (renderClient mWit "./types" "./rest") ∈
      (generatePkg JsCtx.callerCtx [] [] "/out" pkgEnvOk mWit).1 :=
  (generatePkg_wrapper JsCtx.callerCtx [] [] "/out" pkgEnvOk mWit).2.2.2.1 rfl

/-- Helper: every event produced by the protoc loop is a protoc invocation event. -/
theorem protocRun_events (tmp : String) (inc : List String) (pf : Module → Option Err) :
    ∀ ms : List Module, ∀ ev ∈ (protocRun tmp inc pf ms).1, ∃ m, ev = protocEv tmp inc m := by
  intro ms
  induction ms with
  | nil => intro ev h; simp [protocRun] at h
  | cons m t ih =>
    intro ev h
    cases hpf : pf m with
    | some e =>
      simp [protocRun, hpf] at h
      exact ⟨m, h⟩
    | none =>
      simp [protocRun, hpf] at h
      rcases h with h | h
      · exact ⟨m, h⟩
      · exact ih ev h

/-- Helper: when every module's protoc invocation succeeds, the loop performs one
invocation per module, in order, and reports no error. -/
theorem protocRun_ok (tmp : String) (inc : List String) (pf : Module → Option Err) :
    ∀ ms : List Module, (∀ m ∈ ms, pf m = none) →
      protocRun tmp inc pf ms = (ms.map (protocEv tmp inc), none) := by
  intro ms
  induction ms with
  | nil => intro _; rfl
  | cons m t ih =>
    intro h
    have hm := h m (List.mem_cons_self m t)
    have ht := ih fun x hx => h x (List.mem_cons_of_mem m hx)
    simp [protocRun, hm, ht]

/-- Helper: the loop stops at the first failing module, performing no invocation for the
modules after it. -/
theorem protocRun_fail (tmp : String) (inc : List String) (pf : Module → Option Err)
    (m : Module) (e : Err) (hm : pf m = some e) :
    ∀ ms1 : List Module, (∀ x ∈ ms1, pf x = none) → ∀ ms2 : List Module,
      protocRun tmp inc pf (ms1 ++ m :: ms2) =
        (ms1.map (protocEv tmp inc) ++ [protocEv tmp inc m], some e) := by
  intro ms1
  induction ms1 with
  | nil => intro _ ms2; simp [protocRun, hm]
  | cons x t ih =>
    intro h ms2
    have hx := h x (List.mem_cons_self x t)
    have ht := ih (fun y hy => h y (List.mem_cons_of_mem x hy)) ms2
    simp [protocRun, hx, ht]

/-- C1: in native-backend generation, a failing protoc invocation aborts the remaining
modules and no merge into the project tree ever happens; the merge/copy of the staging
subtree is performed at most once in any run, and in a run where every module's
invocation succeeds it is performed exactly once, after all of the invocations. -/
theorem generateGo_merge_once (g : Generator) (env : GoEnv) :
    (((generateGo g env).1.filter isCopy).length ≤ 1) ∧
      (∀ inc tmp ms,
        resolveInclude g [NewModule sdkImport [sdkProto, sdkProtoThirdParty]] = Except.ok inc →
        env.temp = Except.ok tmp → env.discover = Except.ok ms →
        (((∀ m ∈ ms, env.protoc m = none) →
            generateGo g env =
              (Ev.mkStaging tmp ::
                (ms.map (protocEv tmp inc) ++
                  [Ev.copyTree (joinPath tmp g.o.gomodPath) g.projectPath, Ev.rmStaging tmp]),
               wrapErr "cannot copy path" env.copyErr)) ∧
          (∀ ms1 m ms2 e, ms = ms1 ++ m :: ms2 → (∀ x ∈ ms1, env.protoc x = none) →
            env.protoc m = some e →
            generateGo g env =
              (Ev.mkStaging tmp ::
                ((ms1.map (protocEv tmp inc) ++ [protocEv tmp inc m]) ++ [Ev.rmStaging tmp]),
               some e) ∧
            ∀ s d2, Ev.copyTree s d2 ∉ (generateGo g env).1))) := by
  constructor
  · unfold generateGo
    cases h1 : resolveInclude g [NewModule sdkImport [sdkProto, sdkProtoThirdParty]] with
    | error e => simp
    | ok inc =>
      cases h2 : env.temp with
      | error e => simp
      | ok tmp =>
        cases h3 : env.discover with
        | error e => simp [isCopy]
        | ok ms =>
          have hev := protocRun_events tmp inc env.protoc ms
          cases h4 : protocRun tmp inc env.protoc ms with
          | mk tr res =>
            rw [h4] at hev
            have hnc : tr.filter isCopy = [] := by
              rw [List.filter_eq_nil_iff]
              intro a ha
              obtain ⟨m, rfl⟩ := hev a ha
              simp [protocEv, isCopy]
            cases res with
            | some e => simp [h4, List.filter_append, hnc, isCopy]
            | none => simp [h4, List.filter_append, hnc, isCopy]
  · intro inc tmp ms h1 h2 h3
    constructor
    · intro hall
      unfold generateGo
      simp only [h1, h2, h3, protocRun_ok tmp inc env.protoc ms hall]
    · intro ms1 m ms2 e hsplit hpre hm
      have hrun := protocRun_fail tmp inc env.protoc m e hm ms1 hpre ms2
      have heq : generateGo g env =
          (Ev.mkStaging tmp ::
            ((ms1.map (protocEv tmp inc) ++ [protocEv tmp inc m]) ++ [Ev.rmStaging tmp]),
           some e) := by
        unfold generateGo
        simp only [h1, h2, h3, hsplit, hrun]
      refine ⟨heq, ?_⟩
      intro s d2 hmem
      rw [heq] at hmem
      simp [protocEv] at hmem

/-- Witness for C1: the all-success run at a concrete environment performs the protoc
invocation for the single discovered module and then exactly one merge. -/
theorem generateGo_merge_once_witness :
    generateGo gOk goEnvOk =
      (Ev.mkStaging "/tmp/go789" ::
        (([mWit].map (protocEv "/tmp/go789"
            ["/home/user/mychain/proto",
             "/go/pkg/mod/github.com/cosmos/cosmos-sdk@v0.42.4/proto",
             "/go/pkg/mod/github.com/cosmos/cosmos-sdk@v0.42.4/third_party/proto",
             "/home/user/mychain/vendor/proto"])) ++
          [Ev.copyTree (joinPath "/tmp/go789" gOk.o.gomodPath) gOk.projectPath,
           Ev.rmStaging "/tmp/go789"]),
       wrapErr "cannot copy path" goEnvOk.copyErr) :=
  ((generateGo_merge_once gOk goEnvOk).2
      ["/home/user/mychain/proto",
       "/go/pkg/mod/github.com/cosmos/cosmos-sdk@v0.42.4/proto",
       "/go/pkg/mod/github.com/cosmos/cosmos-sdk@v0.42.4/third_party/proto",
       "/home/user/mychain/vendor/proto"] "/tmp/go789" [mWit] (by rfl) rfl rfl).1
    (fun _ _ => rfl)

/-- Helper: appending protoc events in front of a cleaned trace keeps it cleaned. -/
theorem cleaned_protoc_append (tmp : String) (inc : List String) :
    ∀ l : List Ev, (∀ ev ∈ l, ∃ m, ev = protocEv tmp inc m) →
      ∀ l2 : List Ev, cleaned l2 → cleaned (l ++ l2) := by
  intro l
  induction l with
  | nil => intro _ l2 h2; simpa using h2
  | cons ev t ih =>
    intro h l2 h2
    obtain ⟨m, rfl⟩ := h ev (List.mem_cons_self ev t)
    have ht := ih (fun x hx => h x (List.mem_cons_of_mem _ hx)) l2 h2
    simpa [protocEv, cleaned] using ht

/-- C7: every staging directory created by the native-backend routine or by a
per-package JS routine is removed later in that routine's own trace — on the success
path and on every error path. -/
theorem staging_dirs_removed (g : Generator) (genv : GoEnv) (c : JsCtx)
    (ji oi : List String) (out : String) (penv : PkgEnv) (m : Module) :
    cleaned (generateGo g genv).1 ∧ cleaned (generatePkg c ji oi out penv m).1 := by
  constructor
  · unfold generateGo
    cases h1 : resolveInclude g [NewModule sdkImport [sdkProto, sdkProtoThirdParty]] with
    | error e => simp [cleaned]
    | ok inc =>
      cases h2 : genv.temp with
      | error e => simp [cleaned]
      | ok tmp =>
        cases h3 : genv.discover with
        | error e => simp [cleaned]
        | ok ms =>
          have hev := protocRun_events tmp inc genv.protoc ms
          cases h4 : protocRun tmp inc genv.protoc ms with
          | mk tr res =>
            rw [h4] at hev
            cases res with
            | some e =>
              simp only [h4]
              exact ⟨by simp, cleaned_protoc_append tmp inc tr hev [Ev.rmStaging tmp]
                (by simp [cleaned])⟩
            | none =>
              simp only [h4]
              exact ⟨by simp,
                cleaned_protoc_append tmp inc tr hev
                  [Ev.copyTree (joinPath tmp g.o.gomodPath) g.projectPath, Ev.rmStaging tmp]
                  (by simp [cleaned])⟩
  · obtain ⟨pjs, tmp, prc, sta, opn, tpl⟩ := penv
    cases pjs <;> cases tmp <;> cases prc <;> cases sta <;> cases opn <;> cases tpl <;>
      simp [generatePkg, cleaned]

/-- Helper: a task-result list whose only recorded error is `e` makes the group wait
return exactly `e` (this is invariant under permuting the results, so it covers every
completion order). -/
theorem findSome_of_filter_singleton (e : Err) :
    ∀ l : List (Option Err), l.filter Option.isSome = [some e] → l.findSome? id = some e := by
  intro l
  induction l with
  | nil => intro h; simp at h
  | cons a t ih =>
    intro h
    cases a with
    | none =>
      have h2 : t.filter Option.isSome = [some e] := by simpa [List.filter_cons] using h
      exact ih h2
    | some b =>
      have h2 : some b = some e ∧ t.filter Option.isSome = [] := by
        simpa [List.filter_cons] using h
      simpa using h2.1

/-- Helper: a task-result list with no recorded error makes the group wait return none. -/
theorem findSome_of_filter_nil :
    ∀ l : List (Option Err), l.filter Option.isSome = [] → l.findSome? id = none := by
  intro l
  induction l with
  | nil => intro _; rfl
  | cons a t ih =>
    intro h
    cases a with
    | none =>
      have h2 : t.filter Option.isSome = [] := by simpa [List.filter_cons] using h
      exact ih h2
    | some b => simp [List.filter_cons] at h

/-- Helper: two-level group waiting — when the flattened results of the nested groups
record exactly one error `e`, the outer wait of the inner waits returns `e`. -/
theorem findSome_flatten (e : Err) :
    ∀ ls : List (List (Option Err)), ls.flatten.filter Option.isSome = [some e] →
      (ls.map fun l => l.findSome? id).findSome? id = some e := by
  intro ls
  induction ls with
  | nil => intro h; simp at h
  | cons l t ih =>
    intro h
    rw [List.flatten_cons, List.filter_append] at h
    cases hl : l.filter Option.isSome with
    | nil =>
      rw [hl, List.nil_append] at h
      have h1 : l.findSome? id = none := findSome_of_filter_nil l hl
      have h2 := ih h
      simp only [List.map_cons]
      rw [List.findSome?_cons]
      simpa [h1] using h2
    | cons y ys =>
      rw [hl, List.cons_append] at h
      injection h with hy h2
      have hys : ys = [] := (List.append_eq_nil.mp h2).1
      subst hy
      subst hys
      have h3 : l.findSome? id = some e := findSome_of_filter_singleton e l hl
      simp only [List.map_cons]
      rw [List.findSome?_cons]
      simp [h3]

/-- Helper: the per-package routine's return value does not depend on the context it is
run under (the context is only threaded into the subprocess invocations). -/
theorem generatePkg_snd_ctx (c cp : JsCtx) (ji oi : List String) (out : String)
    (env : PkgEnv) (m : Module) :
    (generatePkg c ji oi out env m).2 = (generatePkg cp ji oi out env m).2 := by
  obtain ⟨pjs, tmp, prc, sta, opn, tpl⟩ := env
  cases pjs <;> cases tmp <;> cases prc <;> cases sta <;> cases opn <;> cases tpl <;> rfl

/-- Helper: the result of one root task is the inner wait over its packages' results. -/
theorem runRoot_snd (env : JSEnv) (ji oi : List String) (f : Module → String) (r : Nat)
    (sp : String) (ms : List Module) (h : env.discover sp = Except.ok ms) :
    (runRoot env ji oi f r sp).2 =
      (ms.map fun m =>
        (generatePkg JsCtx.callerCtx ji oi (f m) (env.pkg m) m).2).findSome? id := by
  unfold runRoot
  simp only [h, List.map_map]
  congr 1
  apply List.map_congr_left
  intro m _
  exact generatePkg_snd_ctx (JsCtx.innerCtx r) JsCtx.callerCtx ji oi (f m) (env.pkg m) m

/-- Helper: the outer group's result list is the per-root inner waits, whatever starting
index the fresh contexts are numbered from. -/
theorem runRoots_snd (env : JSEnv) (ji oi : List String) (f : Module → String)
    (mods : String → List Module) :
    ∀ (sps : List String) (i : Nat), (∀ sp ∈ sps, env.discover sp = Except.ok (mods sp)) →
      (runRoots env ji oi f i sps).map Prod.snd =
        sps.map fun sp =>
          ((mods sp).map fun m =>
            (generatePkg JsCtx.callerCtx ji oi (f m) (env.pkg m) m).2).findSome? id := by
  intro sps
  induction sps with
  | nil => intro i _; rfl
  | cons sp t ih =>
    intro i h
    have h1 := h sp (List.mem_cons_self sp t)
    have ht := ih (i + 1) fun x hx => h x (List.mem_cons_of_mem sp hx)
    simp only [runRoots, List.map_cons, ht]
    congr 1
    exact runRoot_snd env ji oi f i sp (mods sp) h1

/-- C5: when, among all the concurrently-run package-generation tasks spawned by the
script-backend orchestration, exactly one fails, the orchestration returns exactly that
task's error — never nil and never an aggregate of several errors.  The hypothesis on
the recorded results is invariant under permutation, so the conclusion holds for every
completion order of the tasks. -/
theorem generateJS_single_failure (g : Generator) (f : Module → String) (env : JSEnv)
    (jsInc oaiInc : List String) (depPaths : List String) (mods : String → List Module)
    (e : Err)
    (h1 : resolveInclude g [NewModule sdkImport [sdkProto]] = Except.ok jsInc)
    (h2 : resolveInclude g [NewModule sdkImport [sdkProto, sdkProtoThirdParty]] =
      Except.ok oaiInc)
    (h3 : locateAll env.locate g.deps = Except.ok depPaths)
    (h4 : ∀ sp ∈ g.projectPath :: depPaths, env.discover sp = Except.ok (mods sp))
    (h5 : (((g.projectPath :: depPaths).flatMap fun sp =>
            (mods sp).map fun m =>
              (generatePkg JsCtx.callerCtx jsInc oaiInc (f m) (env.pkg m) m).2).filter
          Option.isSome) = [some e]) :
    (generateJS g f env).2 = some e := by
  unfold generateJS
  simp only [h1, h2, h3]
  show ((runRoots env jsInc oaiInc f 0 (g.projectPath :: depPaths)).map Prod.snd).findSome? id
      = some e
  rw [runRoots_snd env jsInc oaiInc f mods (g.projectPath :: depPaths) 0 h4]
  have h6 := findSome_flatten e ((g.projectPath :: depPaths).map fun sp =>
    (mods sp).map fun m => (generatePkg JsCtx.callerCtx jsInc oaiInc (f m) (env.pkg m) m).2) ?_
  · rw [List.map_map] at h6
    exact h6
  · rw [← List.flatMap_def]
    exact h5

/-- Witness for C5 at a concrete configuration: two source roots, one discovered package
overall, whose first step fails; the orchestration returns exactly that error. -/
theorem generateJS_single_failure_witness :
    (generateJS gOk f0 jsEnvFail).2 = some "boom" := by
  apply generateJS_single_failure gOk f0 jsEnvFail
      ["/home/user/mychain/proto",
       "/go/pkg/mod/github.com/cosmos/cosmos-sdk@v0.42.4/proto",
       "/home/user/mychain/vendor/proto"]
      ["/home/user/mychain/proto",
       "/go/pkg/mod/github.com/cosmos/cosmos-sdk@v0.42.4/proto",
       "/go/pkg/mod/github.com/cosmos/cosmos-sdk@v0.42.4/third_party/proto",
       "/home/user/mychain/vendor/proto"]
      ["/go/pkg/mod/github.com/cosmos/cosmos-sdk@v0.42.4"]
      modsW "boom"
  · rfl
  · rfl
  · rfl
  · intro sp _; rfl
  · rfl

/-- C9 counterexample: there is no single cancellation context shared by both levels of
the script-backend orchestration — the outer group is created without any cancellation
context at all, and each source root's inner group receives its own fresh context. -/
theorem generateJS_shared_ctx_counterexample :
    outerGroupCancel = none ∧ innerGroupCancel 0 ≠ innerGroupCancel 1 ∧
      ¬ ∃ c : JsCtx, outerGroupCancel = some c ∧ ∀ r : Nat, innerGroupCancel r = c := by
  refine ⟨rfl, by decide, ?_⟩
  rintro ⟨c, hc, -⟩
  exact Option.noConfusion hc

/-- Helper: every context-aware event emitted by one run of the per-package routine
carries the context the routine was started with. -/
theorem generatePkg_ctxOnly (c : JsCtx) (ji oi : List String) (out : String)
    (env : PkgEnv) (m : Module) :
    ctxOnly c (generatePkg c ji oi out env m).1 = true := by
  obtain ⟨pjs, tmp, prc, sta, opn, tpl⟩ := env
  cases pjs <;> cases tmp <;> cases prc <;> cases sta <;> cases opn <;> cases tpl <;>
    simp [generatePkg, ctxOnly, evCtx]

/-- Helper: every context-aware event of a whole root's package fan-out carries that
root's context. -/
theorem ctxOnly_flatten_pkgs (c : JsCtx) (ji oi : List String) (f : Module → String)
    (penv : Module → PkgEnv) :
    ∀ ms : List Module,
      ctxOnly c
        (((ms.map fun m => generatePkg c ji oi (f m) (penv m) m).map Prod.fst).flatten) =
        true := by
  intro ms
  induction ms with
  | nil => rfl
  | cons m t ih =>
    have h1 := generatePkg_ctxOnly c ji oi (f m) (penv m) m
    simp only [ctxOnly] at h1 ih ⊢
    simp only [List.map_cons, List.flatten_cons, List.all_append, h1, ih, Bool.and_self]

/-- C9 (amended): each source root's inner task group has its own cancellation context,
derived from the caller's; a package-task failure in root `r` cancels exactly that
root's context — stopping that root's sibling package tasks — and not the context of
any other root; the outer group has no cancellation context at all; the caller's own
signal cancels every context; and every context-aware invocation performed for root `r`
runs under root `r`'s context. -/
theorem generateJS_cancellation_per_root (env : JSEnv) (ji oi : List String)
    (f : Module → String) (sp : String) (r rp : Nat) (h : r ≠ rp) :
    outerGroupCancel = none ∧
      cancels (innerGroupCancel r) (JsCtx.innerCtx r) = true ∧
      cancels (innerGroupCancel r) (JsCtx.innerCtx rp) = false ∧
      cancels JsCtx.callerCtx (JsCtx.innerCtx r) = true ∧
      ctxOnly (JsCtx.innerCtx r) (runRoot env ji oi f r sp).1 = true := by
  refine ⟨rfl, ?_, ?_, ?_, ?_⟩
  · simp [cancels, ctxAncestors, innerGroupCancel]
  · simp [cancels, ctxAncestors, innerGroupCancel, h]
  · simp [cancels, ctxAncestors]
  · unfold runRoot
    cases hd : env.discover sp with
    | error e => rfl
    | ok ms => exact ctxOnly_flatten_pkgs (JsCtx.innerCtx r) ji oi f env.pkg ms

/-- Witness for the amended C9 at concrete roots 0 and 1. -/
theorem generateJS_cancellation_per_root_witness :
    outerGroupCancel = none ∧
      cancels (innerGroupCancel 0) (JsCtx.innerCtx 0) = true ∧
      cancels (innerGroupCancel 0) (JsCtx.innerCtx 1) = false ∧
      cancels JsCtx.callerCtx (JsCtx.innerCtx 0) = true ∧
      ctxOnly (JsCtx.innerCtx 0) (runRoot jsEnvOk [] [] f0 0 "/home/user/mychain").1 = true :=
  generateJS_cancellation_per_root jsEnvOk [] [] f0 "/home/user/mychain" 0 1 (by decide)

/-- C4: with both the Go and the JS targets set, Go generation runs first; a Go failure
is returned with no JS step performed, and JS generation begins only after Go
generation completed successfully. -/
theorem Generate_go_before_js (pp pr : String) (ip : List String) (o : generateOptions)
    (env : GenEnv) (f : Module → String) (deps : List DepRecord)
    (hset : env.setup = Except.ok deps) (hgo : ¬ o.gomodPath = "") (hjs : o.jsOut = some f) :
    (∀ e, (generateGo ⟨pp, pr, ip, o, deps⟩ env.goEnv).2 = some e →
        GenerateRun pp pr ip o env = ((generateGo ⟨pp, pr, ip, o, deps⟩ env.goEnv).1, some e)) ∧
      ((generateGo ⟨pp, pr, ip, o, deps⟩ env.goEnv).2 = none →
        GenerateRun pp pr ip o env =
          ((generateGo ⟨pp, pr, ip, o, deps⟩ env.goEnv).1 ++
              (generateJS ⟨pp, pr, ip, o, deps⟩ f env.jsEnv).1,
            (generateJS ⟨pp, pr, ip, o, deps⟩ f env.jsEnv).2)) := by
  constructor
  · intro e he
    unfold GenerateRun
    rcases hgg : generateGo ⟨pp, pr, ip, o, deps⟩ env.goEnv with ⟨tr, res⟩
    rw [hgg] at he
    simp only at he
    subst he
    simp only [hset, if_neg hgo, hgg]
  · intro he
    unfold GenerateRun
    rcases hgg : generateGo ⟨pp, pr, ip, o, deps⟩ env.goEnv with ⟨tr, res⟩
    rw [hgg] at he
    simp only at he
    subst he
    rcases hjj : generateJS ⟨pp, pr, ip, o, deps⟩ f env.jsEnv with ⟨trJS, resJS⟩
    simp only [hset, if_neg hgo, hgg, hjs, hjj]

/-- Witness for C4: with both targets set and a successful Go phase, the whole run is
the Go trace followed by the JS trace, with the JS result. -/
theorem Generate_go_before_js_witness :
    GenerateRun "/home/user/mychain" "/home/user/mychain/proto"
        ["/home/user/mychain/vendor/proto"] ⟨"github.com/user/mychain", some f0⟩ genEnvOk =
      ((generateGo gOk genEnvOk.goEnv).1 ++ (generateJS gOk f0 genEnvOk.jsEnv).1,
        (generateJS gOk f0 genEnvOk.jsEnv).2) :=
  (Generate_go_before_js "/home/user/mychain" "/home/user/mychain/proto"
      ["/home/user/mychain/vendor/proto"] ⟨"github.com/user/mychain", some f0⟩ genEnvOk f0
      [sdkDep] rfl (by decide) rfl).2 (by rfl)

/-- C10: a `Generate` call with neither a Go nor a JS target set does not fail for that
reason — once setup succeeds it returns nil having performed no generation at all. -/
theorem Generate_no_targets (pp pr : String) (ip : List String) (o : generateOptions)
    (env : GenEnv) (deps : List DepRecord) (hset : env.setup = Except.ok deps)
    (hgo : o.gomodPath = "") (hjs : o.jsOut = none) :
    GenerateRun pp pr ip o env = ([], none) := by
  unfold GenerateRun
  simp only [hset, hgo, hjs, if_pos]

/-- Witness for C10 at a concrete environment with successful setup. -/
theorem Generate_no_targets_witness :
    GenerateRun "/home/user/mychain" "/home/user/mychain/proto" [] ⟨"", none⟩ genEnvOk =
      ([], none) :=
  Generate_no_targets "/home/user/mychain" "/home/user/mychain/proto" [] ⟨"", none⟩ genEnvOk
    [sdkDep] rfl rfl rfl

end Cosmosgen
